import Mathlib

/-
  Verification of the position lifecycle and order-execution engine of the
  bibot trading bot (app/services/order_manager.py, app/services/position_manager.py,
  app/core/trading_executor.py, app/utils/cache_manager.py, app/utils/binance/client.py,
  app/core/bibot.py), as a shallow embedding in Lean 4.

  Modelling conventions:
  - Python floats are modelled as rationals.
  - Python round(x, 1) is modelled as rounding half to even at one decimal place.
  - Exceptions are modelled with Except; code that catches exceptions is modelled
    by total functions that match on the Except value.
  - The exchange is modelled as an explicit environment (responses to each call).
  - datetime values are modelled by their ISO serialization, an opaque String.
-/

set_option autoImplicit false

/-- Python round to the nearest integer, ties to even, on exact rationals. -/
def roundHalfEven (q : ℚ) : ℤ :=
  let n := ⌊q⌋
  let r := q - (n : ℚ)
  if r < 1/2 then n
  else if 1/2 < r then n + 1
  else if n % 2 = 0 then n else n + 1

/-- Python round(x, 1): round to one decimal place, ties to even. -/
def pyRound1 (q : ℚ) : ℚ := (roundHalfEven (q * 10) : ℚ) / 10

/-! ## Data model (app/models/position.py) -/

/-- Order side, the Literal BUY or SELL of the Position model. BUY opens a
long position, SELL a short one. -/
inductive Side
  | BUY
  | SELL
deriving DecidableEq

/-- Kind of a bracket order, the Literal stop_loss or take_profit of OrderInfo. -/
inductive OrderKind
  | stop_loss
  | take_profit
deriving DecidableEq

/-- OrderInfo model: id and kind of one bracket order attached to a position. -/
structure OrderInfo where
  id : String
  kind : OrderKind
deriving DecidableEq

/-- Position model (pydantic BaseModel in app/models/position.py). The
timestamp field is a datetime in the source; it is modelled here by its ISO
serialization string, which the JSON dump and validation round-trip through. -/
structure Position where
  main_order_id : String
  entry_price : ℚ
  side : Side
  quantity : ℚ
  orders : List OrderInfo
  timestamp : String
deriving DecidableEq

/-! ## JSON values, serialization and pydantic validation -/

/-- JSON values, the shape of data handled by CacheManager and pydantic. -/
inductive JValue
  | null
  | str (s : String)
  | num (q : ℚ)
  | arr (items : List JValue)
  | obj (fields : List (String × JValue))

/-- Lookup of a key in a JSON object field list (first occurrence wins,
mirroring dict access). -/
def jLookup : List (String × JValue) → String → Option JValue
  | [], _ => none
  | (k2, v) :: fs, k => if k2 = k then some v else jLookup fs k

/-- Python truthiness of a JSON value, for the if not cached_data check. -/
def jTruthy : JValue → Bool
  | .null => false
  | .str s => !s.isEmpty
  | .num q => decide (q ≠ 0)
  | .arr items => !items.isEmpty
  | .obj fields => !fields.isEmpty

def Side.toJsonStr : Side → String
  | .BUY => "BUY"
  | .SELL => "SELL"

def OrderKind.toJsonStr : OrderKind → String
  | .stop_loss => "stop_loss"
  | .take_profit => "take_profit"

/-- model_dump(mode=json) of an OrderInfo. -/
def OrderInfo.toJson (o : OrderInfo) : JValue :=
  .obj [("id", .str o.id), ("type", .str o.kind.toJsonStr)]

/-- model_dump(mode=json) of a Position, the record written by _save_positions. -/
def Position.toJson (p : Position) : JValue :=
  .obj [("main_order_id", .str p.main_order_id),
        ("entry_price", .num p.entry_price),
        ("side", .str p.side.toJsonStr),
        ("quantity", .num p.quantity),
        ("orders", .arr (p.orders.map OrderInfo.toJson)),
        ("timestamp", .str p.timestamp)]

def parseStr : JValue → Option String
  | .str s => some s
  | _ => none

/-- Digits of a decimal run, most significant first, as a natural number. -/
def digitsToNat (cs : List Char) : ℕ :=
  cs.foldl (fun acc c => acc * 10 + (c.toNat - 48)) 0

/-- A mantissa as float() reads it: decimal digits with at most one decimal
point and at least one digit overall. -/
def mantissa? (cs : List Char) : Option ℚ :=
  let intPart := cs.takeWhile (fun c => c != '.')
  let rest := cs.dropWhile (fun c => c != '.')
  match rest with
  | [] =>
    if intPart ≠ [] ∧ intPart.all Char.isDigit then some (digitsToNat intPart) else none
  | _ :: fracPart =>
    if (intPart ≠ [] ∨ fracPart ≠ [])
        ∧ intPart.all Char.isDigit ∧ fracPart.all Char.isDigit then
      some ((digitsToNat intPart : ℚ)
        + (digitsToNat fracPart : ℚ) / (10 : ℚ) ^ fracPart.length)
    else none

/-- An exponent part: an optional sign followed by a nonempty digit run. -/
def exponent? (cs : List Char) : Option ℤ :=
  let signAndDigits : ℤ × List Char :=
    match cs with
    | '-' :: rest => (-1, rest)
    | '+' :: rest => (1, rest)
    | _ => (1, cs)
  if signAndDigits.2 ≠ [] ∧ signAndDigits.2.all Char.isDigit then
    some (signAndDigits.1 * digitsToNat signAndDigits.2)
  else none

/-- float() applied to a string, for the numeric forms that pydantic lax
coercion accepts out of a JSON round trip: an optional sign, decimal digits
with an optional point, and an optional exponent. The exact rational value
is returned; a non-numeric string fails. -/
def pyFloat? (s : String) : Option ℚ :=
  let cs := s.toList
  let signAndRest : ℚ × List Char :=
    match cs with
    | '-' :: rest => (-1, rest)
    | '+' :: rest => (1, rest)
    | _ => (1, cs)
  let base := signAndRest.2.takeWhile (fun c => c != 'e' && c != 'E')
  let rest := signAndRest.2.dropWhile (fun c => c != 'e' && c != 'E')
  match rest with
  | [] => do
    let m ← mantissa? base
    some (signAndRest.1 * m)
  | _ :: expPart => do
    let m ← mantissa? base
    let e ← exponent? expPart
    some (signAndRest.1 * m * (10 : ℚ) ^ e)

/-- Lax validation of a float field (entry_price, quantity): a JSON number
is taken as is, and a numeric string is coerced the way pydantic coerces
str to float; every other value fails validation. -/
def parseLaxFloat : JValue → Option ℚ
  | .num q => some q
  | .str s => pyFloat? s
  | _ => none

def parseSide : JValue → Option Side
  | .str "BUY" => some .BUY
  | .str "SELL" => some .SELL
  | _ => none

def parseOrderKind : JValue → Option OrderKind
  | .str "stop_loss" => some .stop_loss
  | .str "take_profit" => some .take_profit
  | _ => none

/-- Pydantic validation of one OrderInfo record: both fields must be present
and well-typed, otherwise validation fails. -/
def OrderInfo.model_validate : JValue → Option OrderInfo
  | .obj fields => do
    let i ← jLookup fields "id" >>= parseStr
    let k ← jLookup fields "type" >>= parseOrderKind
    some ⟨i, k⟩
  | _ => none

/-- Pydantic validation of a list of OrderInfo records: every element must
validate, otherwise the whole list (and so the containing Position) fails. -/
def parseOrderInfos : List JValue → Option (List OrderInfo)
  | [] => some []
  | v :: rest => do
    let o ← OrderInfo.model_validate v
    let os ← parseOrderInfos rest
    some (o :: os)

def parseOrderList : JValue → Option (List OrderInfo)
  | .arr items => parseOrderInfos items
  | _ => none

/-- The value the default_factory datetime.now() of the timestamp field
fills in when the field is absent: the clock reading at validation time,
modelled as an opaque constant because its value is irrelevant to every
property proved here. -/
def datetime_now : String := "datetime.now()"

/-- Validation of a present timestamp value: a datetime string is taken as
is (datetimes are modelled by their serialization string), and a numeric
epoch, which pydantic also accepts, is represented by its decimal image;
every other present value fails validation. -/
def parseTimestamp : JValue → Option String
  | .str s => some s
  | .num q => some (toString q)
  | _ => none

/-- Pydantic validation of one Position record with the lax coercions the
source model applies: a non-object is rejected; main_order_id must be a
string (pydantic does not coerce numbers to str); entry_price and quantity
accept numbers and numeric strings; side must be the literal BUY or SELL;
orders must be a list of valid OrderInfo records; timestamp is optional,
filled by its default_factory datetime.now when absent, and accepts
datetime strings and numeric epochs when present. A validation failure
raises, which load_positions catches per record (the record is dropped with
a warning). -/
def Position.model_validate : JValue → Option Position
  | .obj fields => do
    let mid ← jLookup fields "main_order_id" >>= parseStr
    let ep ← jLookup fields "entry_price" >>= parseLaxFloat
    let sd ← jLookup fields "side" >>= parseSide
    let q ← jLookup fields "quantity" >>= parseLaxFloat
    let os ← jLookup fields "orders" >>= parseOrderList
    let ts ← match jLookup fields "timestamp" with
      | none => some datetime_now
      | some v => parseTimestamp v
    some ⟨mid, ep, sd, q, os, ts⟩
  | _ => none

/-- Cache records that pydantic Position validation rejects with certainty,
whatever further lax coercion applies: values that are not a JSON object,
and objects missing the required main_order_id field, which has no default.
The dropped-record part of the round-trip theorem is stated for these
records only, so it relies on the failure verdict of the modelled validator
exactly where the source validator is certain to fail as well. -/
def certainly_invalid : JValue → Bool
  | .obj fields => (jLookup fields "main_order_id").isNone
  | _ => true

/-! ## Configuration (app/config/settings.py, trading section) -/

/-- The trading configuration fields consumed by the verified components. -/
structure TradingConfig where
  trading_pair : String
  stop_loss_percentage : ℚ
  take_profit_percentage : ℚ
  max_positions : Nat
  position_size : ℚ

/-! ## OrderManager._calculate_sl_tp_levels (app/services/order_manager.py) -/

/-- OrderManager._calculate_sl_tp_levels: stop-loss and take-profit trigger
prices computed from the entry price, rounded with round(x, 1). -/
def calculate_sl_tp_levels (cfg : TradingConfig) (side : Side) (entry_price : ℚ) : ℚ × ℚ :=
  match side with
  | .BUY =>
    (pyRound1 (entry_price * (1 - cfg.stop_loss_percentage / 100)),
     pyRound1 (entry_price * (1 + cfg.take_profit_percentage / 100)))
  | .SELL =>
    (pyRound1 (entry_price * (1 + cfg.stop_loss_percentage / 100)),
     pyRound1 (entry_price * (1 - cfg.take_profit_percentage / 100)))

/-- Spec formula for the bracket prices, written from the spec text: for a
LONG, stop-loss = round(entry times (1 - slPct/100)) and take-profit =
round(entry times (1 + tpPct/100)); for SHORT the signs invert. The round is
the price rounding the code applies, one decimal place, as fixed by the
worked example of the spec (64967.5 and 65065.0 at entry 65000). -/
def spec_bracket_levels (slPct tpPct entry : ℚ) (side : Side) : ℚ × ℚ :=
  match side with
  | .BUY => (pyRound1 (entry * (1 - slPct / 100)), pyRound1 (entry * (1 + tpPct / 100)))
  | .SELL => (pyRound1 (entry * (1 + slPct / 100)), pyRound1 (entry * (1 - tpPct / 100)))

/-- C4: for a LONG (BUY) at fill price P with stop-loss percentage s and
take-profit percentage t, _calculate_sl_tp_levels returns stop price
round(P times (1 - s/100)) and take-profit round(P times (1 + t/100)); for a
SHORT (SELL) the signs are inverted; and at P = 65000, s = 0.05, t = 0.1 the
levels are stop-loss 64967.5 and take-profit 65065.0. -/
theorem calculate_sl_tp_levels_formula :
    (∀ (cfg : TradingConfig) (side : Side) (P : ℚ),
      calculate_sl_tp_levels cfg side P =
        spec_bracket_levels cfg.stop_loss_percentage cfg.take_profit_percentage P side)
    ∧ calculate_sl_tp_levels ⟨"BTCUSDT", 1/20, 1/10, 1, 1/100⟩ Side.BUY 65000 =
        (64967.5, 65065.0) := by
  constructor
  · intro cfg side P
    cases side <;> rfl
  · show (pyRound1 (65000 * (1 - (1/20 : ℚ) / 100)), pyRound1 (65000 * (1 + (1/10 : ℚ) / 100))) = _
    norm_num [pyRound1, roundHalfEven]

/-! ## CacheManager (app/utils/cache_manager.py) -/

/-- State of the on-disk cache file: missing, present with invalid JSON, or
present with a parsed JSON value. -/
inductive CacheFile
  | missing
  | corrupt
  | content (v : JValue)

/-- The body of CacheManager.load before its try/except: a missing file
yields None, invalid JSON raises json.JSONDecodeError, otherwise the parsed
value is returned. -/
def cacheLoadRaw : CacheFile → Except String (Option JValue)
  | .missing => .ok none
  | .corrupt => .error "json.JSONDecodeError"
  | .content v => .ok (some v)

/-- CacheManager.load: the whole body is wrapped in try/except Exception,
which logs and returns None, so a parse error is swallowed and surfaces to
the caller as None, indistinguishable from a missing file. -/
def CacheManager.load (f : CacheFile) : Option JValue :=
  match cacheLoadRaw f with
  | .ok v => v
  | .error _ => none

/-- CacheManager.save: overwrites the file wholesale with the new value. -/
def CacheManager.save (v : JValue) : CacheFile :=
  .content v

/-- CacheManager.clear: writes an empty JSON object rather than deleting. -/
def CacheManager.clear : CacheFile :=
  .content (.obj [])

/-! ## PositionManager (app/services/position_manager.py) -/

/-- State owned by a PositionManager: the in-memory active set and the cache
file backing it. -/
structure PMState where
  active_positions : List Position
  cache : CacheFile

/-- Snapshot of the exchange data consumed by one reconciliation pass:
the ids of currently open orders for the pair, and the (symbol, positionAmt)
rows reported for the pair. -/
structure ExchangeSnapshot where
  open_order_ids : List String
  positions : List (String × ℚ)

/-- The set of symbols that have an actual open position on the exchange:
symbols whose positionAmt is nonzero. -/
def open_position_symbols (positions : List (String × ℚ)) : List String :=
  (positions.filter (fun sp => decide (sp.2 ≠ 0))).map Prod.fst

/-- The closure test applied to one tracked position inside
check_closed_positions: closed when the pair no longer appears among nonzero
exchange positions, or else when none of its bracket order ids is still open. -/
def position_is_closed (pair : String) (open_order_ids : List String)
    (open_syms : List String) (p : Position) : Bool :=
  let position_exists_on_binance := decide (pair ∈ open_syms)
  let associated_orders_open := p.orders.any (fun oi => decide (oi.id ∈ open_order_ids))
  if !position_exists_on_binance then true
  else if !associated_orders_open then true
  else false

/-- PositionManager._save_positions: dumps the active set to JSON and
overwrites the cache (save errors are logged and swallowed). -/
def save_positions (st : PMState) : PMState :=
  { st with cache := CacheManager.save (.arr (st.active_positions.map Position.toJson)) }

/-- PositionManager.check_closed_positions: partitions the tracked positions
with the closure test and keeps only the open ones, persisting when at least
one was removed. Cancellation of lingering bracket orders of removed
positions is attempted with every error swallowed, so it does not affect the
resulting state. -/
def check_closed_positions (cfg : TradingConfig) (snap : ExchangeSnapshot) (st : PMState) : PMState :=
  if st.active_positions.isEmpty then st
  else
    let open_syms := open_position_symbols snap.positions
    let closed := position_is_closed cfg.trading_pair snap.open_order_ids open_syms
    let kept := st.active_positions.filter (fun p => !closed p)
    if st.active_positions.any closed then
      save_positions { st with active_positions := kept }
    else st

/-- PositionManager.load_positions: reads the cache (None and falsy values
mean nothing to load, a non-list is rejected wholesale), validates each
record keeping only the valid ones, then reconciles the loaded set with
check_closed_positions when it is nonempty. The except branches that would
clear the cache are unreachable because CacheManager.load never raises. -/
def load_positions (cfg : TradingConfig) (snap : ExchangeSnapshot) (st : PMState) : PMState :=
  match CacheManager.load st.cache with
  | none => st
  | some v =>
    if !jTruthy v then st
    else
      match v with
      | .arr items =>
        let valid := items.filterMap Position.model_validate
        let st2 := { st with active_positions := valid }
        if valid.isEmpty then st2
        else check_closed_positions cfg snap st2
      | _ => st

/-- PositionManager.clear_cache. -/
def clear_cache (st : PMState) : PMState :=
  { st with cache := CacheManager.clear }

/-- PositionManager.get_position_count. -/
def get_position_count (st : PMState) : Nat :=
  st.active_positions.length

/-- PositionManager.has_reached_position_limit: count at or above the
configured maximum. -/
def has_reached_position_limit (cfg : TradingConfig) (st : PMState) : Bool :=
  decide (get_position_count st ≥ cfg.max_positions)

/-- PositionManager.add_position: appends and persists immediately. -/
def add_position (p : Position) (st : PMState) : PMState :=
  save_positions { st with active_positions := st.active_positions ++ [p] }

/-! ## Serialization round-trip lemmas -/

theorem orderInfo_validate_toJson (o : OrderInfo) :
    OrderInfo.model_validate o.toJson = some o := by
  obtain ⟨i, k⟩ := o
  cases k <;> rfl

theorem parseOrderList_map_toJson (os : List OrderInfo) :
    parseOrderList (.arr (os.map OrderInfo.toJson)) = some os := by
  induction os with
  | nil => rfl
  | cons o os ih =>
    simp only [List.map_cons, parseOrderList, parseOrderInfos,
      orderInfo_validate_toJson]
    simp only [parseOrderList] at ih
    simp [ih]

theorem position_validate_toJson (p : Position) :
    Position.model_validate p.toJson = some p := by
  obtain ⟨mid, ep, sd, q, os, ts⟩ := p
  cases sd <;>
    simp [Position.model_validate, Position.toJson, jLookup, parseStr, parseLaxFloat,
      parseTimestamp,
      parseSide, Side.toJsonStr, parseOrderList_map_toJson os, Option.bind]

theorem filterMap_model_validate_map_toJson (ps : List Position) :
    (ps.map Position.toJson).filterMap Position.model_validate = ps := by
  induction ps with
  | nil => rfl
  | cons p ps ih =>
    simp [List.filterMap_cons, position_validate_toJson, ih]

/-! ## Retry decorator and BinanceClient.cancel_order (app/utils/binance/client.py) -/

/-- The data of a raised exception that the retry decorator inspects:
whether it is a BinanceAPIException, its Binance error code, and its
message. -/
structure ExcInfo where
  isBinanceAPIException : Bool
  code : ℤ
  msg : String
deriving DecidableEq

/-- Outcome of one invocation of the wrapped function: a returned value or a
raised exception (assumed to be in allowed_exceptions, the only kind the
loop handles). -/
inductive AttemptResult (α : Type)
  | ok (v : α)
  | raise (e : ExcInfo)

/-- The error codes the retry decorator never retries: API key errors, bad
timestamp, invalid parameters. -/
def nonRetriableCodes : List ℤ := [-2014, -2015, -1021, -1022]

/-- A raised exception is non-retriable when it is a BinanceAPIException
with one of the non-retriable codes. -/
def nonRetriable (e : ExcInfo) : Bool :=
  e.isBinanceAPIException && nonRetriableCodes.contains e.code

/-- Trace of one retried call: the final result (returned value or the
exception that escapes), the backoff sleeps performed in order, and the
number of invocations of the wrapped function. -/
structure RetryTrace (α : Type) where
  result : Except ExcInfo α
  sleeps : List ℚ
  calls : Nat

/-- The loop body of the retry decorator: remaining is the number of loop
iterations left out of max_retries, attempt the zero-based index of the
current one. On a retriable failure the loop sleeps delay times
backoff_factor to the power attempt, also after the final attempt, before
the last exception is re-raised. -/
def retryGo {α : Type} (f : Nat → AttemptResult α) (delay backoff : ℚ) :
    Nat → Nat → Option ExcInfo → List ℚ → Nat → RetryTrace α
  | 0, _, last, sleeps, calls =>
    match last with
    | some e => ⟨.error e, sleeps, calls⟩
    | none => ⟨.error ⟨false, 0, "Unexpected error in retry mechanism"⟩, sleeps, calls⟩
  | remaining + 1, attempt, _, sleeps, calls =>
    match f attempt with
    | .ok v => ⟨.ok v, sleeps, calls + 1⟩
    | .raise e =>
      if nonRetriable e then ⟨.error e, sleeps, calls + 1⟩
      else retryGo f delay backoff remaining (attempt + 1) (some e)
        (sleeps ++ [delay * backoff ^ attempt]) (calls + 1)

/-- One call through the retry decorator with the given parameters. The
decorator is applied with max_retries = 3 and the defaults retry_delay = 1
and backoff_factor = 2.0 on every BinanceClient method. -/
def retryRun {α : Type} (f : Nat → AttemptResult α) (max_retries : Nat)
    (retry_delay backoff_factor : ℚ) : RetryTrace α :=
  retryGo f retry_delay backoff_factor max_retries 0 none [] 0

/-- Exchange response to one cancel-order attempt: cancelled, rejected with
code -2011 (Unknown order, the order is already gone), or some other raised
exception. -/
inductive CancelOutcome
  | cancelled
  | unknownOrder
  | raiseErr (e : ExcInfo)

/-- The body of BinanceClient.cancel_order for one attempt: a -2011 Unknown
order rejection is caught and converted to a success-equivalent CANCELED
response instead of raising, so it is never retried as an error; every other
exception is re-raised to the retry loop. The Bool result stands for the
cancellation response dict. -/
def cancel_order_attempt (resp : Nat → CancelOutcome) (attempt : Nat) : AttemptResult Bool :=
  match resp attempt with
  | .cancelled => .ok true
  | .unknownOrder => .ok true
  | .raiseErr e => .raise e

/-- BinanceClient.cancel_order: the attempt body wrapped by the retry
decorator with max_retries = 3. -/
def cancel_order_client (resp : Nat → CancelOutcome) : RetryTrace Bool :=
  retryRun (cancel_order_attempt resp) 3 1 2

/-! ## OrderManager.place_market_order (app/services/order_manager.py) -/

/-- Response to a successful market order: the exchange-assigned order id
and the average fill price. -/
structure MarketOrderResp where
  orderId : String
  avgPrice : ℚ

/-- Response of the exchange to one bracket-order placement after the retry
envelope: the order id on success, or failure (the raised exception, caught
by _place_stop_loss and _place_take_profit, which log and return None). -/
inductive BracketResp
  | ok (orderId : String)
  | fail
deriving DecidableEq

/-- OrderManager._place_stop_loss and _place_take_profit: both catch every
exception and return None on failure. -/
def place_bracket_result : BracketResp → Option String
  | .ok i => some i
  | .fail => none

/-- OrderManager.place_market_order: place the market order (a failure there
aborts and returns None), then build the Position with empty orders, then
append a stop_loss OrderInfo when the stop-loss placement succeeded and a
take_profit OrderInfo when the take-profit placement succeeded. The bracket
responders are functions of the price submitted to the exchange. -/
def place_market_order (cfg : TradingConfig) (side : Side) (quantity : ℚ)
    (market : Option MarketOrderResp) (slResp tpResp : ℚ → BracketResp)
    (now : String) : Option Position :=
  match market with
  | none => none
  | some o =>
    let entry_price := o.avgPrice
    let levels := calculate_sl_tp_levels cfg side entry_price
    let base : Position :=
      { main_order_id := o.orderId
        entry_price := entry_price
        side := side
        quantity := quantity
        orders := []
        timestamp := now }
    let withSl :=
      match place_bracket_result (slResp levels.1) with
      | some i => { base with orders := base.orders ++ [⟨i, .stop_loss⟩] }
      | none => base
    let withTp :=
      match place_bracket_result (tpResp levels.2) with
      | some i => { withSl with orders := withSl.orders ++ [⟨i, .take_profit⟩] }
      | none => withSl
    some withTp

/-! ## PositionManager.cleanup_position (app/services/position_manager.py) -/

/-- The cancel-order call cleanup_position makes through the BinanceClient
wrapper, summarized by its final outcome per order id: a -2011 Unknown order
rejection is converted by the wrapper to a success-equivalent response and
never raises; any other failure raises after the retry envelope. -/
def client_cancel_result (resp : String → CancelOutcome) (oid : String) : Except ExcInfo Bool :=
  match resp oid with
  | .cancelled => .ok true
  | .unknownOrder => .ok true
  | .raiseErr e => .error e

/-- One iteration of the cancellation loop of cleanup_position: the cancel
call is made through the wrapper and any raised exception is caught, turning
success to False (the Unknown order check in the handler only selects the
log level, it does not restore success). -/
def cancel_success_step (resp : String → CancelOutcome) (acc : Bool) (oi : OrderInfo) : Bool :=
  match client_cancel_result resp oi.id with
  | .ok _ => acc
  | .error _ => false

/-- PositionManager.cleanup_position: cancels each bracket order of the
given position, with every raised exception caught (success becomes False),
then removes from the active set every position whose main_order_id equals
the given one, persisting when something was removed. -/
def cleanup_position (resp : String → CancelOutcome) (p : Position) (st : PMState) :
    Bool × PMState :=
  let success := p.orders.foldl (cancel_success_step resp) true
  let kept := st.active_positions.filter
    (fun q => decide (q.main_order_id ≠ p.main_order_id))
  let removed := decide (kept.length < st.active_positions.length)
  let st2 := { st with active_positions := kept }
  (success, if removed then save_positions st2 else st2)

/-! ## TradingExecutor.execute_long_trade and execute_short_trade
(app/core/trading_executor.py) -/

/-- The result dictionary of execute_long_trade and execute_short_trade. -/
structure TradeResult where
  success : Bool
  error : Option String
  position : Option Position
deriving DecidableEq

/-- The exchange environment one executeTrade call runs against: the market
order response, the two bracket responders and the clock. -/
structure ExecEnv where
  market : Option MarketOrderResp
  slResp : ℚ → BracketResp
  tpResp : ℚ → BracketResp
  now : String

/-- TradingExecutor.execute_long_trade and execute_short_trade (identical up
to the side passed to OrderManager and the failure message): re-check the
position limit first and return failure with no exchange call when reached;
otherwise delegate to OrderManager.place_market_order and register a
returned Position with PositionManager.add_position. The last component
records whether the order-placement path (open_long_position or
open_short_position) was invoked. -/
def execute_trade (cfg : TradingConfig) (side : Side) (quantity : ℚ) (env : ExecEnv)
    (st : PMState) : TradeResult × PMState × Bool :=
  if has_reached_position_limit cfg st then
    ({ success := false, error := some "Maximum position limit reached", position := none },
     st, false)
  else
    match place_market_order cfg side quantity env.market env.slResp env.tpResp env.now with
    | some p =>
      ({ success := true, error := none, position := some p }, add_position p st, true)
    | none =>
      ({ success := false
         error := some (match side with
           | .BUY => "Failed to open long position"
           | .SELL => "Failed to open short position")
         position := none },
       st, true)

/-- A sequence of executeTrade calls, each with its side, quantity and
exchange environment, threaded through the PositionManager state. -/
def run_trades (cfg : TradingConfig) (events : List (Side × ℚ × ExecEnv)) (st : PMState) :
    PMState :=
  events.foldl (fun s ev => (execute_trade cfg ev.1 ev.2.1 ev.2.2 s).2.1) st

/-! ## Main loop signal dispatch (app/core/bibot.py, BiBot.run) -/

/-- The long/short boolean signal pair returned by the strategy. -/
structure Signals where
  long : Bool
  short : Bool

/-- What the main loop does with a signal pair in one iteration. -/
inductive LoopAction
  | placeLong
  | placeShort
  | noTrade
deriving DecidableEq

/-- The signal dispatch of BiBot.run: an if/elif chain that places a BUY
order when the long signal is set, otherwise a SELL order when the short
signal is set, otherwise nothing. -/
def signal_action (s : Signals) : LoopAction :=
  if s.long then .placeLong
  else if s.short then .placeShort
  else .noTrade

/-! ## Claim C9 (main loop signal dispatch) -/

/-- C9 counterexample: when the strategy returns long = true and short =
true, the main loop does not treat the pair as no consensus; the iteration
is not a no-trade iteration. -/
theorem signal_action_both_true_cex :
    ¬ signal_action ⟨true, true⟩ = LoopAction.noTrade := by
  decide

/-- C9 amended: when the strategy returns a signal pair with both long =
true and short = true, the caller does not crash (the dispatch is a total
if/elif chain) but it does place an order: the long branch takes priority,
so the iteration places the BUY order and the short side is not executed. -/
theorem signal_action_both_true_long_priority :
    signal_action ⟨true, true⟩ = LoopAction.placeLong := by
  decide

/-! ## Claim C3 (corrupt cache recovery) -/

/-- C3 counterexample: on a cache file holding invalid JSON the raw read
raises a json.JSONDecodeError, but CacheManager.load swallows it inside its
own try/except and returns None, the same value as for a missing file, so no
error condition reaches the caller; load_positions then takes its early
no-cached-data return, so the cache file stays corrupt: clear_cache is never
invoked (the cleared file would be CacheManager.clear, a different value). -/
theorem cache_load_corrupt_cex :
    cacheLoadRaw CacheFile.corrupt = Except.error "json.JSONDecodeError"
    ∧ CacheManager.load CacheFile.corrupt = none
    ∧ CacheManager.load CacheFile.missing = none
    ∧ load_positions ⟨"BTCUSDT", 1/20, 1/10, 1, 1/100⟩ ⟨[], []⟩ ⟨[], CacheFile.corrupt⟩ =
        ⟨[], CacheFile.corrupt⟩
    ∧ CacheFile.corrupt ≠ CacheManager.clear :=
  ⟨rfl, rfl, rfl, rfl, fun h => nomatch h⟩

/-- C3 amended: when the cache file contains invalid JSON, CacheManager.load
catches the parse error and returns None instead of propagating it, and
PositionManager.load_positions consequently does not raise past itself and
returns with the active set unchanged (hence empty at startup) and the cache
file untouched: clear_cache is not invoked, because the except branches of
load_positions that would clear the cache are unreachable. -/
theorem load_positions_corrupt_cache (cfg : TradingConfig) (snap : ExchangeSnapshot)
    (active : List Position) :
    CacheManager.load CacheFile.corrupt = none
    ∧ load_positions cfg snap ⟨active, CacheFile.corrupt⟩ = ⟨active, CacheFile.corrupt⟩ :=
  ⟨rfl, rfl⟩

/-! ## Claims C2 and C10 (reconciliation closure rule) -/

theorem check_closed_positions_removes (cfg : TradingConfig) (snap : ExchangeSnapshot)
    (st : PMState) (p : Position) (hp : p ∈ st.active_positions)
    (hc : position_is_closed cfg.trading_pair snap.open_order_ids
      (open_position_symbols snap.positions) p = true) :
    p ∉ (check_closed_positions cfg snap st).active_positions := by
  have hne : st.active_positions.isEmpty = false := by
    revert hp
    cases st.active_positions with
    | nil => intro hp; cases hp
    | cons a l => intro _; rfl
  have hany : st.active_positions.any
      (position_is_closed cfg.trading_pair snap.open_order_ids
        (open_position_symbols snap.positions)) = true :=
    List.any_eq_true.mpr ⟨p, hp, hc⟩
  intro hmem
  unfold check_closed_positions at hmem
  rw [hne] at hmem
  simp only [Bool.false_eq_true, if_false, hany, if_true] at hmem
  have := (List.mem_filter.mp hmem).2
  rw [hc] at this
  cases this

/-- C2: in check_closed_positions a tracked Position is judged closed and
removed from the active set when EITHER the configured pair does not appear
among exchange rows with nonzero positionAmt OR none of its bracket order
ids appears among the open order ids; in particular condition (b) alone
suffices, even while the pair still shows nonzero exchange exposure. -/
theorem check_closed_positions_closure_rule (cfg : TradingConfig) (snap : ExchangeSnapshot)
    (st : PMState) (p : Position) (hp : p ∈ st.active_positions)
    (h : cfg.trading_pair ∉ open_position_symbols snap.positions
      ∨ ∀ oi ∈ p.orders, oi.id ∉ snap.open_order_ids) :
    position_is_closed cfg.trading_pair snap.open_order_ids
      (open_position_symbols snap.positions) p = true
    ∧ p ∉ (check_closed_positions cfg snap st).active_positions := by
  have hc : position_is_closed cfg.trading_pair snap.open_order_ids
      (open_position_symbols snap.positions) p = true := by
    unfold position_is_closed
    rcases h with h | h
    · simp [h]
    · have : p.orders.any (fun oi => decide (oi.id ∈ snap.open_order_ids)) = false := by
        simp only [List.any_eq_false]
        intro oi hoi
        simp [h oi hoi]
      simp [this]
  exact ⟨hc, check_closed_positions_removes cfg snap st p hp hc⟩

/-- C10: a tracked Position whose orders list is empty is judged closed by
check_closed_positions and removed from the active set even when the
exchange still reports nonzero exposure for the configured pair, because
the no-associated-open-bracket-orders condition holds vacuously for an
empty orders list. -/
theorem check_closed_positions_empty_orders_removed (cfg : TradingConfig)
    (snap : ExchangeSnapshot) (st : PMState) (p : Position)
    (hp : p ∈ st.active_positions) (hord : p.orders = [])
    (hexp : cfg.trading_pair ∈ open_position_symbols snap.positions) :
    position_is_closed cfg.trading_pair snap.open_order_ids
      (open_position_symbols snap.positions) p = true
    ∧ p ∉ (check_closed_positions cfg snap st).active_positions := by
  have hc : position_is_closed cfg.trading_pair snap.open_order_ids
      (open_position_symbols snap.positions) p = true := by
    unfold position_is_closed
    simp [hexp, hord]
  exact ⟨hc, check_closed_positions_removes cfg snap st p hp hc⟩

/-! ## Concrete instances used by the witnesses -/

def cfgW : TradingConfig := ⟨"BTCUSDT", 1/20, 1/10, 1, 1⟩

def posW : Position :=
  ⟨"1001", 65000, Side.BUY, 1, [⟨"2001", .stop_loss⟩, ⟨"2002", .take_profit⟩],
   "2024-01-01T00:00:00"⟩

def posNoOrdersW : Position :=
  ⟨"1002", 64000, Side.SELL, 1, [], "2024-01-01T00:05:00"⟩

def snapW : ExchangeSnapshot := ⟨["9901"], [("BTCUSDT", 1)]⟩

theorem check_closed_positions_closure_rule_witness :
    position_is_closed cfgW.trading_pair snapW.open_order_ids
      (open_position_symbols snapW.positions) posW = true
    ∧ posW ∉ (check_closed_positions cfgW snapW ⟨[posW], CacheFile.missing⟩).active_positions :=
  check_closed_positions_closure_rule cfgW snapW ⟨[posW], CacheFile.missing⟩ posW
    (by simp) (Or.inr (by decide))

theorem check_closed_positions_empty_orders_removed_witness :
    position_is_closed cfgW.trading_pair snapW.open_order_ids
      (open_position_symbols snapW.positions) posNoOrdersW = true
    ∧ posNoOrdersW ∉
      (check_closed_positions cfgW snapW ⟨[posNoOrdersW], CacheFile.missing⟩).active_positions :=
  check_closed_positions_empty_orders_removed cfgW snapW ⟨[posNoOrdersW], CacheFile.missing⟩
    posNoOrdersW (by simp) rfl (by decide)

/-! ## Claim C1 (admission control) -/

theorem execute_trade_active_le (cfg : TradingConfig) (side : Side) (q : ℚ) (env : ExecEnv)
    (st : PMState) (h : st.active_positions.length ≤ cfg.max_positions) :
    ((execute_trade cfg side q env st).2.1).active_positions.length ≤ cfg.max_positions := by
  by_cases hl : has_reached_position_limit cfg st = true
  · simpa [execute_trade, hl] using h
  · have hlt : st.active_positions.length < cfg.max_positions := by
      simp only [has_reached_position_limit, get_position_count, ge_iff_le,
        decide_eq_true_eq] at hl
      omega
    cases hm : place_market_order cfg side q env.market env.slResp env.tpResp env.now with
    | none => simpa [execute_trade, hl, hm] using h
    | some p =>
      simp only [execute_trade, hl, Bool.false_eq_true, if_false, hm, add_position,
        save_positions]
      simp only [List.length_append, List.length_cons, List.length_nil]
      omega

/-- C1: starting from any state within the position limit, no sequence of
execute_long_trade and execute_short_trade calls can push the active set
above max_positions; and a call made while get_position_count is at or above
max_positions returns success = false with error Maximum position limit
reached, leaves the state (active set and cache) unchanged, and does not
invoke the order-placement path (open_long_position or open_short_position
is not called, so no exchange order is placed). -/
theorem execute_trade_admission_control :
    (∀ (cfg : TradingConfig) (events : List (Side × ℚ × ExecEnv)) (st : PMState),
      st.active_positions.length ≤ cfg.max_positions →
      (run_trades cfg events st).active_positions.length ≤ cfg.max_positions)
    ∧ (∀ (cfg : TradingConfig) (side : Side) (q : ℚ) (env : ExecEnv) (st : PMState),
      get_position_count st ≥ cfg.max_positions →
      execute_trade cfg side q env st =
        ({ success := false, error := some "Maximum position limit reached",
           position := none }, st, false)) := by
  constructor
  · intro cfg events
    induction events with
    | nil => intro st h; simpa [run_trades] using h
    | cons ev evs ih =>
      intro st h
      have h2 := execute_trade_active_le cfg ev.1 ev.2.1 ev.2.2 st h
      simpa [run_trades] using ih _ h2
  · intro cfg side q env st h
    have hl : has_reached_position_limit cfg st = true := by
      simp only [has_reached_position_limit, decide_eq_true_eq]
      exact h
    simp [execute_trade, hl]

def envW : ExecEnv :=
  ⟨some ⟨"3001", 64500⟩, fun _ => BracketResp.ok "3002", fun _ => BracketResp.ok "3003",
   "2024-01-01T00:10:00"⟩

def stLimitW : PMState := ⟨[posW], CacheFile.missing⟩

theorem execute_trade_admission_control_witness :
    (run_trades cfgW [(Side.BUY, 1, envW)] stLimitW).active_positions.length ≤
      cfgW.max_positions
    ∧ execute_trade cfgW Side.SELL 1 envW stLimitW =
        ({ success := false, error := some "Maximum position limit reached",
           position := none }, stLimitW, false) :=
  ⟨execute_trade_admission_control.1 cfgW [(Side.BUY, 1, envW)] stLimitW (by decide),
   execute_trade_admission_control.2 cfgW Side.SELL 1 envW stLimitW (by decide)⟩

/-! ## Claim C5 (partial bracket failure tolerance) -/

/-- C5: when the market order succeeds, place_market_order returns a
Position even when the stop-loss placement, the take-profit placement, or
both fail: the orders list contains at most one stop_loss and at most one
take_profit entry, a failed bracket is simply absent from it, both entries
are present exactly when both brackets succeed, and no bracket failure makes
the call return None. -/
theorem place_market_order_bracket_tolerance (cfg : TradingConfig) (side : Side) (q : ℚ)
    (o : MarketOrderResp) (slResp tpResp : ℚ → BracketResp) (now : String) :
    ∃ pos, place_market_order cfg side q (some o) slResp tpResp now = some pos
      ∧ pos.orders.countP (fun oi => decide (oi.kind = OrderKind.stop_loss)) ≤ 1
      ∧ pos.orders.countP (fun oi => decide (oi.kind = OrderKind.take_profit)) ≤ 1
      ∧ (slResp (calculate_sl_tp_levels cfg side o.avgPrice).1 = BracketResp.fail →
          pos.orders.countP (fun oi => decide (oi.kind = OrderKind.stop_loss)) = 0)
      ∧ (tpResp (calculate_sl_tp_levels cfg side o.avgPrice).2 = BracketResp.fail →
          pos.orders.countP (fun oi => decide (oi.kind = OrderKind.take_profit)) = 0)
      ∧ (slResp (calculate_sl_tp_levels cfg side o.avgPrice).1 ≠ BracketResp.fail →
          tpResp (calculate_sl_tp_levels cfg side o.avgPrice).2 ≠ BracketResp.fail →
          pos.orders.countP (fun oi => decide (oi.kind = OrderKind.stop_loss)) = 1
          ∧ pos.orders.countP (fun oi => decide (oi.kind = OrderKind.take_profit)) = 1) := by
  cases hsl : slResp (calculate_sl_tp_levels cfg side o.avgPrice).1 with
  | ok i =>
    cases htp : tpResp (calculate_sl_tp_levels cfg side o.avgPrice).2 with
    | ok j =>
      have heq : place_market_order cfg side q (some o) slResp tpResp now =
          some ⟨o.orderId, o.avgPrice, side, q,
            [⟨i, .stop_loss⟩, ⟨j, .take_profit⟩], now⟩ := by
        simp [place_market_order, place_bracket_result, hsl, htp]
      refine ⟨_, heq, ?_⟩
      simp [List.countP_cons, List.countP_nil, htp]
    | fail =>
      have heq : place_market_order cfg side q (some o) slResp tpResp now =
          some ⟨o.orderId, o.avgPrice, side, q, [⟨i, .stop_loss⟩], now⟩ := by
        simp [place_market_order, place_bracket_result, hsl, htp]
      refine ⟨_, heq, ?_⟩
      simp [List.countP_cons, List.countP_nil, htp]
  | fail =>
    cases htp : tpResp (calculate_sl_tp_levels cfg side o.avgPrice).2 with
    | ok j =>
      have heq : place_market_order cfg side q (some o) slResp tpResp now =
          some ⟨o.orderId, o.avgPrice, side, q, [⟨j, .take_profit⟩], now⟩ := by
        simp [place_market_order, place_bracket_result, hsl, htp]
      refine ⟨_, heq, ?_⟩
      simp [List.countP_cons, List.countP_nil, hsl]
    | fail =>
      have heq : place_market_order cfg side q (some o) slResp tpResp now =
          some ⟨o.orderId, o.avgPrice, side, q, [], now⟩ := by
        simp [place_market_order, place_bracket_result, hsl, htp]
      refine ⟨_, heq, ?_⟩
      simp [List.countP_cons, List.countP_nil, hsl, htp]

def slFailW : ℚ → BracketResp := fun _ => BracketResp.fail

def tpOkW : ℚ → BracketResp := fun _ => BracketResp.ok "3003"

theorem place_market_order_bracket_tolerance_witness :
    ∃ pos, place_market_order cfgW Side.BUY 1 (some ⟨"3001", 65000⟩) slFailW tpOkW
        "2024-01-01T00:10:00" = some pos
      ∧ pos.orders.countP (fun oi => decide (oi.kind = OrderKind.stop_loss)) = 0
      ∧ pos.orders.countP (fun oi => decide (oi.kind = OrderKind.take_profit)) ≤ 1 := by
  obtain ⟨pos, h1, -, h3, h4, -, -⟩ :=
    place_market_order_bracket_tolerance cfgW Side.BUY 1 ⟨"3001", 65000⟩ slFailW tpOkW
      "2024-01-01T00:10:00"
  exact ⟨pos, h1, h4 rfl, h3⟩

/-! ## Claim C6 (cleanup_position) -/

/-- Whether the cancel call for one bracket order completes without raising
at the PositionManager level: only an error other than the already-gone
Unknown order rejection raises, because the client wrapper converts the
latter into a success-equivalent response. -/
def cancel_ok (resp : String → CancelOutcome) (oi : OrderInfo) : Bool :=
  match resp oi.id with
  | CancelOutcome.raiseErr _ => false
  | _ => true

theorem cancel_fold_eq (resp : String → CancelOutcome) (orders : List OrderInfo) (acc : Bool) :
    orders.foldl (cancel_success_step resp) acc = (acc && orders.all (cancel_ok resp)) := by
  induction orders generalizing acc with
  | nil => simp
  | cons o os ih =>
    simp only [List.foldl_cons, List.all_cons]
    rw [ih]
    cases h : resp o.id <;>
      simp [cancel_success_step, client_cancel_result, cancel_ok, h, Bool.and_assoc]

theorem cancel_ok_false_iff (resp : String → CancelOutcome) (oi : OrderInfo) :
    cancel_ok resp oi = false ↔ ∃ e, resp oi.id = CancelOutcome.raiseErr e := by
  cases h : resp oi.id <;> simp [cancel_ok, h]

theorem cleanup_position_active (resp : String → CancelOutcome) (p : Position) (st : PMState) :
    (cleanup_position resp p st).2.active_positions =
      st.active_positions.filter (fun q2 => decide (q2.main_order_id ≠ p.main_order_id)) := by
  unfold cleanup_position
  dsimp only
  split <;> rfl

/-- C6: cleanup_position never raises (it is a total function of the
per-order cancel outcomes, every raised cancellation error being caught);
it removes from the active set exactly the positions whose main_order_id
equals that of the given position; it returns false if and only if some
cancellation failed with an error other than the already-gone Unknown order
rejection (which the client wrapper converts to a success-equivalent
response, so an Unknown order failure alone does not make it return false);
and a second call on the same Position is defined and a no-op: when all its
orders are by then already absent, it returns true and leaves the state
unchanged. -/
theorem cleanup_position_spec (resp : String → CancelOutcome) (p : Position) (st : PMState) :
    (∀ q2, q2 ∈ (cleanup_position resp p st).2.active_positions ↔
      q2 ∈ st.active_positions ∧ q2.main_order_id ≠ p.main_order_id)
    ∧ ((cleanup_position resp p st).1 = false ↔
      ∃ oi ∈ p.orders, ∃ e, resp oi.id = CancelOutcome.raiseErr e)
    ∧ (∀ resp2 : String → CancelOutcome,
      (∀ oi ∈ p.orders, resp2 oi.id = CancelOutcome.unknownOrder) →
      cleanup_position resp2 p (cleanup_position resp p st).2 =
        (true, (cleanup_position resp p st).2)) := by
  refine ⟨?_, ?_, ?_⟩
  · intro q2
    rw [cleanup_position_active, List.mem_filter]
    simp
  · show (p.orders.foldl (cancel_success_step resp) true) = false ↔ _
    rw [cancel_fold_eq]
    simp only [Bool.true_and, List.all_eq_false]
    constructor
    · rintro ⟨oi, hoi, hfalse⟩
      rw [Bool.not_eq_true] at hfalse
      exact ⟨oi, hoi, (cancel_ok_false_iff resp oi).mp hfalse⟩
    · rintro ⟨oi, hoi, e, he⟩
      refine ⟨oi, hoi, ?_⟩
      rw [Bool.not_eq_true]
      exact (cancel_ok_false_iff resp oi).mpr ⟨e, he⟩
  · intro resp2 hresp2
    have hsucc : p.orders.foldl (cancel_success_step resp2) true = true := by
      rw [cancel_fold_eq]
      simp only [Bool.true_and, List.all_eq_true]
      intro oi hoi
      simp [cancel_ok, hresp2 oi hoi]
    obtain ⟨X, hX⟩ : ∃ X, (cleanup_position resp p st).2 = X := ⟨_, rfl⟩
    have hmem : ∀ q2 ∈ X.active_positions,
        decide (q2.main_order_id ≠ p.main_order_id) = true := by
      intro q2 hq2
      rw [← hX, cleanup_position_active] at hq2
      exact (List.mem_filter.mp hq2).2
    have hkeep : X.active_positions.filter
        (fun q2 => decide (q2.main_order_id ≠ p.main_order_id)) = X.active_positions :=
      List.filter_eq_self.mpr hmem
    rw [hX]
    show cleanup_position resp2 p X = (true, X)
    unfold cleanup_position
    dsimp only
    rw [hsucc, hkeep]
    simp

def respGoneW : String → CancelOutcome := fun _ => CancelOutcome.unknownOrder

def stW : PMState := ⟨[posW], CacheFile.missing⟩

theorem cleanup_position_spec_witness :
    (posW ∈ (cleanup_position respGoneW posW stW).2.active_positions ↔
      posW ∈ stW.active_positions ∧ posW.main_order_id ≠ posW.main_order_id)
    ∧ ((cleanup_position respGoneW posW stW).1 = false ↔
      ∃ oi ∈ posW.orders, ∃ e, respGoneW oi.id = CancelOutcome.raiseErr e)
    ∧ cleanup_position respGoneW posW (cleanup_position respGoneW posW stW).2 =
        (true, (cleanup_position respGoneW posW stW).2) :=
  ⟨(cleanup_position_spec respGoneW posW stW).1 posW,
   (cleanup_position_spec respGoneW posW stW).2.1,
   (cleanup_position_spec respGoneW posW stW).2.2 respGoneW (fun _ _ => rfl)⟩

/-! ## Claim C7 (retry policy) -/

theorem retryGo_step {α : Type} (f : Nat → AttemptResult α) (d b : ℚ) (r attempt : Nat)
    (last : Option ExcInfo) (sleeps : List ℚ) (calls : Nat) :
    retryGo f d b (r + 1) attempt last sleeps calls =
      match f attempt with
      | .ok v => ⟨.ok v, sleeps, calls + 1⟩
      | .raise e =>
        if nonRetriable e then ⟨.error e, sleeps, calls + 1⟩
        else retryGo f d b r (attempt + 1) (some e)
          (sleeps ++ [d * b ^ attempt]) (calls + 1) := rfl

theorem retryGo_zero {α : Type} (f : Nat → AttemptResult α) (d b : ℚ) (attempt : Nat)
    (e : ExcInfo) (sleeps : List ℚ) (calls : Nat) :
    retryGo f d b 0 attempt (some e) sleeps calls = ⟨.error e, sleeps, calls⟩ := rfl

/-- C7: a raised exception with one of the non-retriable Binance codes
(-2014, -2015, -1021, -1022) is re-raised on its first occurrence with no
further attempt and no backoff sleep; any other allowed exception is retried
up to 3 total attempts with backoff sleeps of 1, 2 and 4 units before the
last exception is re-raised; and a cancel_order call answered with the
Unknown order rejection (code -2011) returns a success-equivalent result on
the first attempt, with no retry and no raised error. -/
theorem retry_policy_spec :
    (∀ (α : Type) (f : Nat → AttemptResult α) (e : ExcInfo),
      nonRetriable e = true → f 0 = AttemptResult.raise e →
      retryRun f 3 1 2 = ⟨Except.error e, [], 1⟩)
    ∧ (∀ (α : Type) (f : Nat → AttemptResult α) (e0 e1 e2 : ExcInfo),
      nonRetriable e0 = false → nonRetriable e1 = false → nonRetriable e2 = false →
      f 0 = AttemptResult.raise e0 → f 1 = AttemptResult.raise e1 →
      f 2 = AttemptResult.raise e2 →
      retryRun f 3 1 2 = ⟨Except.error e2, [1, 2, 4], 3⟩)
    ∧ (∀ resp : Nat → CancelOutcome, resp 0 = CancelOutcome.unknownOrder →
      cancel_order_client resp = ⟨Except.ok true, [], 1⟩) := by
  refine ⟨?_, ?_, ?_⟩
  · intro α f e hnr hf
    unfold retryRun
    rw [show (3 : Nat) = 2 + 1 from rfl, retryGo_step, hf]
    simp [hnr]
  · intro α f e0 e1 e2 h0 h1 h2 hf0 hf1 hf2
    unfold retryRun
    rw [show (3 : Nat) = 2 + 1 from rfl, retryGo_step, hf0]
    simp only [h0, Bool.false_eq_true, if_false]
    rw [show (2 : Nat) = 1 + 1 from rfl, retryGo_step, hf1]
    simp only [h1, Bool.false_eq_true, if_false]
    rw [show (1 : Nat) = 0 + 1 from rfl, retryGo_step, hf2]
    simp only [h2, Bool.false_eq_true, if_false]
    rw [retryGo_zero]
    norm_num
  · intro resp h
    unfold cancel_order_client retryRun
    rw [show (3 : Nat) = 2 + 1 from rfl, retryGo_step]
    simp [cancel_order_attempt, h]

def excAuthW : ExcInfo := ⟨true, -2014, "API-key format invalid"⟩

def excNetW : ExcInfo := ⟨false, 0, "Connection reset by peer"⟩

def fAuthW : Nat → AttemptResult Bool := fun _ => AttemptResult.raise excAuthW

def fNetW : Nat → AttemptResult Bool := fun _ => AttemptResult.raise excNetW

def respCancelGoneW : Nat → CancelOutcome := fun _ => CancelOutcome.unknownOrder

theorem retry_policy_spec_witness :
    retryRun fAuthW 3 1 2 = ⟨Except.error excAuthW, [], 1⟩
    ∧ retryRun fNetW 3 1 2 = ⟨Except.error excNetW, [1, 2, 4], 3⟩
    ∧ cancel_order_client respCancelGoneW = ⟨Except.ok true, [], 1⟩ :=
  ⟨retry_policy_spec.1 Bool fAuthW excAuthW (by decide) rfl,
   retry_policy_spec.2.1 Bool fNetW excNetW excNetW excNetW rfl rfl rfl rfl rfl rfl,
   retry_policy_spec.2.2 respCancelGoneW rfl⟩

/-! ## Claim C8 (cache round trip) -/

theorem check_closed_positions_keeps (cfg : TradingConfig) (snap : ExchangeSnapshot)
    (st : PMState)
    (h : ∀ p ∈ st.active_positions,
      position_is_closed cfg.trading_pair snap.open_order_ids
        (open_position_symbols snap.positions) p = false) :
    check_closed_positions cfg snap st = st := by
  unfold check_closed_positions
  cases he : st.active_positions.isEmpty with
  | true => simp
  | false =>
    have hany : st.active_positions.any
        (position_is_closed cfg.trading_pair snap.open_order_ids
          (open_position_symbols snap.positions)) = false :=
      List.any_eq_false.mpr (fun p hp => by simp [h p hp])
    simp [hany]

theorem load_positions_cached_list (cfg : TradingConfig) (snap : ExchangeSnapshot)
    (active0 : List Position) (a : JValue) (rest : List JValue)
    (hvalid : (a :: rest).filterMap Position.model_validate ≠ []) :
    load_positions cfg snap ⟨active0, CacheFile.content (.arr (a :: rest))⟩ =
      check_closed_positions cfg snap
        ⟨(a :: rest).filterMap Position.model_validate,
         CacheFile.content (.arr (a :: rest))⟩ := by
  cases hv : (a :: rest).filterMap Position.model_validate with
  | nil => exact absurd hv hvalid
  | cons p pl =>
    unfold load_positions CacheManager.load cacheLoadRaw
    simp only [jTruthy, List.isEmpty_cons, Bool.not_false, Bool.true_eq_false, if_false, hv,
      Bool.not_true]
    rfl

theorem model_validate_of_certainly_invalid (m : JValue)
    (hm : certainly_invalid m = true) : Position.model_validate m = none := by
  cases m with
  | obj fields =>
    have hlook : jLookup fields "main_order_id" = none := by
      simpa [certainly_invalid, Option.isNone_iff_eq_none] using hm
    simp [Position.model_validate, hlook]
  | null => rfl
  | str s => rfl
  | num q => rfl
  | arr items => rfl

/-- C8: saving a nonempty well-formed active set with _save_positions and
loading it back with load_positions (with an exchange snapshot that shows no
divergence: the pair has nonzero exposure and each position still has an
open bracket order) yields the original list of Positions, equal field by
field and dropping no record; and a malformed record appended to the cached
list (one that pydantic validation certainly rejects: a non-object value, or
an object missing the required main_order_id field) is dropped on its own
with a warning while every well-formed record is still loaded. -/
theorem save_load_round_trip (cfg : TradingConfig) (snap : ExchangeSnapshot)
    (ps : List Position) (c : CacheFile) (st0 : List Position) (m : JValue)
    (hne : ps ≠ [])
    (hexp : cfg.trading_pair ∈ open_position_symbols snap.positions)
    (hords : ∀ p ∈ ps, ∃ oi ∈ p.orders, oi.id ∈ snap.open_order_ids)
    (hm : certainly_invalid m = true) :
    (load_positions cfg snap (save_positions ⟨ps, c⟩)).active_positions = ps
    ∧ (load_positions cfg snap
        ⟨st0, CacheFile.content (.arr (ps.map Position.toJson ++ [m]))⟩).active_positions
      = ps := by
  have hopen : ∀ p ∈ ps, position_is_closed cfg.trading_pair snap.open_order_ids
      (open_position_symbols snap.positions) p = false := by
    intro p hp
    obtain ⟨oi, hoi, hid⟩ := hords p hp
    have hany : p.orders.any (fun oi2 => decide (oi2.id ∈ snap.open_order_ids)) = true :=
      List.any_eq_true.mpr ⟨oi, hoi, by simp [hid]⟩
    simp [position_is_closed, hexp, hany]
  have hkeeps : ∀ cc : CacheFile, check_closed_positions cfg snap ⟨ps, cc⟩ = ⟨ps, cc⟩ :=
    fun cc => check_closed_positions_keeps cfg snap ⟨ps, cc⟩ hopen
  obtain ⟨p0, ps2, rfl⟩ := List.exists_cons_of_ne_nil hne
  constructor
  · have hfm : (Position.toJson p0 :: ps2.map Position.toJson).filterMap
        Position.model_validate = p0 :: ps2 := by
      simpa using filterMap_model_validate_map_toJson (p0 :: ps2)
    rw [show save_positions ⟨p0 :: ps2, c⟩ =
        (⟨p0 :: ps2, CacheFile.content
          (.arr (Position.toJson p0 :: ps2.map Position.toJson))⟩ : PMState) from rfl]
    rw [load_positions_cached_list cfg snap (p0 :: ps2) (Position.toJson p0)
      (ps2.map Position.toJson) (by rw [hfm]; exact List.cons_ne_nil p0 ps2)]
    rw [hfm, hkeeps]
  · have hmv : Position.model_validate m = none :=
      model_validate_of_certainly_invalid m hm
    have hfm2 : (Position.toJson p0 :: (ps2.map Position.toJson ++ [m])).filterMap
        Position.model_validate = p0 :: ps2 := by
      simp only [List.filterMap_cons, List.filterMap_append, hmv,
        position_validate_toJson]
      simp [filterMap_model_validate_map_toJson ps2]
    rw [show ((p0 :: ps2).map Position.toJson ++ [m]) =
        Position.toJson p0 :: (ps2.map Position.toJson ++ [m]) from by simp]
    rw [load_positions_cached_list cfg snap st0 (Position.toJson p0)
      (ps2.map Position.toJson ++ [m]) (by rw [hfm2]; exact List.cons_ne_nil p0 ps2)]
    rw [hfm2, hkeeps]

def snapOpenW : ExchangeSnapshot := ⟨["2001", "2002"], [("BTCUSDT", 1)]⟩

theorem save_load_round_trip_witness :
    (load_positions cfgW snapOpenW
        (save_positions ⟨[posW], CacheFile.missing⟩)).active_positions = [posW]
    ∧ (load_positions cfgW snapOpenW
        ⟨[], CacheFile.content
          (.arr ([posW].map Position.toJson ++ [JValue.null]))⟩).active_positions = [posW] :=
  save_load_round_trip cfgW snapOpenW [posW] CacheFile.missing [] JValue.null
    (List.cons_ne_nil posW []) (by decide) (by decide) rfl
